import Mathlib

set_option linter.unusedVariables false

/-!
Verification of the bioflow simulation core (src/applet.py).

The program is a three-state bioreactor model: a pure function
`derivatives` mapping a state `(X, S, kla)` and a parameter list
`(mua, mum, Ks, Xm, b, C, Kp, Ki, Do)` to instantaneous derivatives,
and an explicit forward-Euler loop over a uniform `np.linspace` grid.

Two embeddings are given, both translated line by line from the source:
* an idealized one over exact rationals (`derivatives`, `traj`), used for
  the algebraic and structural properties; and
* one over `FQ` — rationals extended with signed infinity and NaN — which
  mirrors how NumPy float arithmetic silently produces and propagates
  non-finite values (`derivativesF`, `trajF`), used for the
  finiteness/error-handling properties.
-/

/-- The parameter list `p` unpacked on line 13 of src/applet.py:
`mua, mum, Ks, Xm, b, C, Kp, Ki, Do = p`. -/
structure Params where
  mua : ℚ
  mum : ℚ
  Ks : ℚ
  Xm : ℚ
  b : ℚ
  C : ℚ
  Kp : ℚ
  Ki : ℚ
  Do : ℚ
  deriving DecidableEq, Repr

/-- The state vector `y = (X, S, kla)` unpacked on line 13 of src/applet.py. -/
structure State where
  X : ℚ
  S : ℚ
  kla : ℚ
  deriving DecidableEq, Repr

/-- Line-by-line embedding of `derivatives(y, t, p)` (src/applet.py lines 11-43)
over exact rationals.  The time argument `t` is accepted and ignored, exactly
as in the source. -/
def derivatives (y : State) (t : ℚ) (p : Params) : State :=
  -- dXdt = (mua + (mum * S)/(Ks + S))*(1-X/Xm)*X
  let dXdt : ℚ := (p.mua + (p.mum * y.S) / (p.Ks + y.S)) * (1 - y.X / p.Xm) * y.X
  -- if S < 0: dSdt = 0 else: dSdt = -X*b + kla*(C - S)
  let dSdt : ℚ := if y.S < 0 then 0 else -y.X * p.b + y.kla * (p.C - y.S)
  -- if kla < 0: dkladt_PI = 0 else: dkladt_PI = Ki*(Do - S)
  let dkladt_PI : ℚ := if y.kla < 0 then 0 else p.Ki * (p.Do - y.S)
  -- if (C - Do) > 0: dkladt_FF = (b / (C - Do)) * dXdt else: dkladt_FF = 0
  let dkladt_FF : ℚ := if p.C - p.Do > 0 then (p.b / (p.C - p.Do)) * dXdt else 0
  -- if kla > 20: dkladt = 0 else: dkladt = dkladt_PI + dkladt_FF
  let dkladt : ℚ := if y.kla > 20 then 0 else dkladt_PI + dkladt_FF
  ⟨dXdt, dSdt, dkladt⟩

/-- The uniform grid `t = np.linspace(start, stop, n)` (src/applet.py line 82):
`t_i = start + i * (stop - start) / (n - 1)`. -/
def linspace (start stop : ℚ) (n : ℕ) (i : ℕ) : ℚ :=
  start + (i : ℚ) * (stop - start) / ((n : ℚ) - 1)

/-- One forward-Euler update (src/applet.py lines 87-90): each component of the
new state is the old component plus the corresponding derivative times `dt`. -/
def eulerStep (p : Params) (y : State) (t dt : ℚ) : State :=
  let d := derivatives y t p
  ⟨y.X + d.X * dt, y.S + d.S * dt, y.kla + d.kla * dt⟩

/-- The Euler iteration of src/applet.py lines 84-90 as a function of the
sample index: `traj p y0 a b n 0 = y0` and row `i` is obtained from row
`i - 1` by one Euler step with `dt = t_i - t_{i-1}`, the derivative being
evaluated at `(vals[i-1], t[i-1])`. -/
def traj (p : Params) (y0 : State) (a b : ℚ) (n : ℕ) : ℕ → State
  | 0 => y0
  | i + 1 =>
      eulerStep p (traj p y0 a b n i) (linspace a b n i)
        (linspace a b n (i + 1) - linspace a b n i)

/-- The trajectory container `vals` (src/applet.py line 83): exactly `n` rows,
row `i` holding the state at grid point `i`. -/
def trajList (p : Params) (y0 : State) (a b : ℚ) (n : ℕ) : List State :=
  (List.range n).map (traj p y0 a b n)

/-- A model of IEEE floating-point values as used by the NumPy arithmetic in
src/applet.py: a finite value (kept exact — rounding and overflow are not
modelled), a signed infinity (`inf true` is `+∞`), or NaN.  Finite arithmetic
is exact; the special values follow IEEE 754 / NumPy propagation rules, in
particular division of a nonzero finite value by (positive) zero silently
yields a signed infinity and `0/0` yields NaN, with no exception. -/
inductive FQ where
  | fin : ℚ → FQ
  | inf : Bool → FQ
  | nan : FQ
  deriving DecidableEq, Repr

/-- A value is finite when it is neither an infinity nor NaN. -/
def FQ.isFinite : FQ → Bool
  | FQ.fin _ => true
  | _ => false

/-- IEEE negation. -/
def FQ.neg : FQ → FQ
  | FQ.fin a => FQ.fin (-a)
  | FQ.inf s => FQ.inf (!s)
  | FQ.nan => FQ.nan

/-- IEEE addition: infinities of opposite sign give NaN; NaN propagates. -/
def FQ.add : FQ → FQ → FQ
  | FQ.fin a, FQ.fin b => FQ.fin (a + b)
  | FQ.fin _, FQ.inf s => FQ.inf s
  | FQ.inf s, FQ.fin _ => FQ.inf s
  | FQ.inf s, FQ.inf t => if s = t then FQ.inf s else FQ.nan
  | _, _ => FQ.nan

/-- IEEE subtraction. -/
def FQ.sub (a b : FQ) : FQ :=
  a.add b.neg

/-- IEEE multiplication: `±∞ * 0` is NaN, otherwise signs multiply;
NaN propagates. -/
def FQ.mul : FQ → FQ → FQ
  | FQ.fin a, FQ.fin b => FQ.fin (a * b)
  | FQ.fin a, FQ.inf s => if a = 0 then FQ.nan else if 0 < a then FQ.inf s else FQ.inf (!s)
  | FQ.inf s, FQ.fin b => if b = 0 then FQ.nan else if 0 < b then FQ.inf s else FQ.inf (!s)
  | FQ.inf s, FQ.inf t => FQ.inf (s == t)
  | _, _ => FQ.nan

/-- IEEE division: a nonzero finite value divided by zero silently yields a
signed infinity (the zero arising here is the positive zero produced by a
float sum that cancels exactly), `0/0` yields NaN, `∞/∞` yields NaN;
NaN propagates. -/
def FQ.div : FQ → FQ → FQ
  | FQ.fin a, FQ.fin b =>
      if b = 0 then (if a = 0 then FQ.nan else if 0 < a then FQ.inf true else FQ.inf false)
      else FQ.fin (a / b)
  | FQ.fin _, FQ.inf _ => FQ.fin 0
  | FQ.inf s, FQ.fin b => if 0 ≤ b then FQ.inf s else FQ.inf (!s)
  | _, _ => FQ.nan

/-- IEEE strict less-than: any comparison involving NaN is false. -/
def FQ.lt : FQ → FQ → Bool
  | FQ.fin a, FQ.fin b => decide (a < b)
  | FQ.fin _, FQ.inf s => s
  | FQ.inf s, FQ.fin _ => !s
  | FQ.inf s, FQ.inf t => !s && t
  | _, _ => false

/-- The state vector over float-like values, as held in the NumPy array
`vals` of src/applet.py. -/
structure StateF where
  X : FQ
  S : FQ
  kla : FQ
  deriving DecidableEq, Repr

/-- Lift an exact rational state to the float-like model. -/
def State.toF (y : State) : StateF :=
  ⟨FQ.fin y.X, FQ.fin y.S, FQ.fin y.kla⟩

/-- Line-by-line embedding of `derivatives(y, t, p)` (src/applet.py lines
11-43) over float-like values, mirroring what NumPy float64 arithmetic does
on the state array: no input validation, no exception — a zero denominator
`Ks + S` silently produces a non-finite growth term.  Parameters are the
(always finite) slider floats, kept as rationals. -/
def derivativesF (y : StateF) (t : ℚ) (p : Params) : StateF :=
  -- dXdt = (mua + (mum * S)/(Ks + S))*(1-X/Xm)*X
  let dXdt : FQ :=
    (((FQ.fin p.mua).add (((FQ.fin p.mum).mul y.S).div ((FQ.fin p.Ks).add y.S))).mul
      ((FQ.fin 1).sub (y.X.div (FQ.fin p.Xm)))).mul y.X
  -- if S < 0: dSdt = 0 else: dSdt = -X*b + kla*(C - S)
  let dSdt : FQ :=
    if y.S.lt (FQ.fin 0) then FQ.fin 0
    else ((y.X.neg).mul (FQ.fin p.b)).add (y.kla.mul ((FQ.fin p.C).sub y.S))
  -- if kla < 0: dkladt_PI = 0 else: dkladt_PI = Ki*(Do - S)
  let dkladt_PI : FQ :=
    if y.kla.lt (FQ.fin 0) then FQ.fin 0
    else (FQ.fin p.Ki).mul ((FQ.fin p.Do).sub y.S)
  -- if (C - Do) > 0: dkladt_FF = (b / (C - Do)) * dXdt else: dkladt_FF = 0
  let dkladt_FF : FQ :=
    if p.C - p.Do > 0 then (FQ.fin (p.b / (p.C - p.Do))).mul dXdt else FQ.fin 0
  -- if kla > 20: dkladt = 0 else: dkladt = dkladt_PI + dkladt_FF
  let dkladt : FQ :=
    if (FQ.fin 20).lt y.kla then FQ.fin 0 else dkladt_PI.add dkladt_FF
  ⟨dXdt, dSdt, dkladt⟩

/-- One forward-Euler update (src/applet.py lines 87-90) over float-like
values.  There is no finiteness check of any kind: whatever the derivative
is — finite, infinite or NaN — it is multiplied by `dt` and added in. -/
def stepF (p : Params) (y : StateF) (t dt : ℚ) : StateF :=
  let d := derivativesF y t p
  ⟨y.X.add (d.X.mul (FQ.fin dt)), y.S.add (d.S.mul (FQ.fin dt)),
    y.kla.add (d.kla.mul (FQ.fin dt))⟩

/-- The Euler iteration of src/applet.py lines 84-90 over float-like values.
The loop `for i in range(1, len(t))` runs over the whole grid unconditionally:
there is no halt, no error report and no finiteness test at any step. -/
def trajF (p : Params) (y0 : State) (a b : ℚ) (n : ℕ) : ℕ → StateF
  | 0 => y0.toF
  | i + 1 =>
      stepF p (trajF p y0 a b n i) (linspace a b n i)
        (linspace a b n (i + 1) - linspace a b n i)

example : (trajList ⟨0, 0, 0, 1, 0, 1, 0, 0, 0⟩ ⟨1, 1, 0⟩ 0 1 3).length = 3 := by
  simp [trajList]

example :
    trajF ⟨0, 1, 1, 2, 2, 1, 0, 0, 1⟩ ⟨1, 1, 0⟩ 0 4 5 2 =
      ⟨FQ.inf false, FQ.fin (-1), FQ.fin 0⟩ := by
  show stepF _ (stepF _ _ _ _) _ _ = _
  norm_num [stepF, derivativesF, linspace, traj, trajF, State.toF, FQ.add, FQ.mul,
    FQ.div, FQ.sub, FQ.neg, FQ.lt, StateF.mk.injEq]

example :
    traj ⟨0, 1, 1, 2, 2, 1, 0, 0, 1⟩ ⟨1, 1, 0⟩ 0 4 5 1 = ⟨5/4, -1, 0⟩ := by
  show eulerStep _ _ _ _ = _
  norm_num [eulerStep, derivatives, linspace, traj, State.mk.injEq]

/-- The float-like trajectory container, mirroring `vals` (src/applet.py line
83): the loop always fills all `n` rows, whatever values appear in them. -/
def trajListF (p : Params) (y0 : State) (a b : ℚ) (n : ℕ) : List StateF :=
  (List.range n).map (trajF p y0 a b n)

/-- The piecewise reference law of spec section 4.1, written following the
spec text: `dXdt` evaluated unconditionally; `dSdt = 0` when `S < 0` and
otherwise `-X*b + kla*(C - S)`; `dkladt = 0` when `kla > 20`, otherwise the
sum of the PI part (`0` when `kla < 0`, else `Ki*(Do - S)`) and the
feed-forward part (`(b/(C - Do))*dXdt` when `C - Do > 0`, else `0`). -/
def specDerivLaw (y : State) (p : Params) : State :=
  ⟨(p.mua + p.mum * y.S / (p.Ks + y.S)) * (1 - y.X / p.Xm) * y.X,
   if y.S < 0 then 0 else -y.X * p.b + y.kla * (p.C - y.S),
   if y.kla > 20 then 0
   else (if y.kla < 0 then 0 else p.Ki * (p.Do - y.S)) +
     (if p.C - p.Do > 0 then
        (p.b / (p.C - p.Do)) *
          ((p.mua + p.mum * y.S / (p.Ks + y.S)) * (1 - y.X / p.Xm) * y.X)
      else 0)⟩

/-- Finiteness of an `FQ` value means it is literally `FQ.fin` of a rational. -/
theorem FQ.isFinite_iff (a : FQ) : a.isFinite = true ↔ ∃ q, a = FQ.fin q := by
  cases a <;> simp [FQ.isFinite]

/-- Helper for the finiteness induction: on a state whose three components are
finite, with `Xm ≠ 0` and a nonzero denominator `Ks + S`, every component of
the derivative is again finite (every division in the body then has a nonzero
finite divisor, and all remaining operations map finite values to finite
values). -/
theorem derivativesF_finite (y : StateF) (t : ℚ) (p : Params)
    (hXm : p.Xm ≠ 0)
    (hX : y.X.isFinite) (hS : y.S.isFinite) (hk : y.kla.isFinite)
    (hKs : (FQ.fin p.Ks).add y.S ≠ FQ.fin 0) :
    (derivativesF y t p).X.isFinite ∧ (derivativesF y t p).S.isFinite ∧
      (derivativesF y t p).kla.isFinite := by
  obtain ⟨yX, yS, yk⟩ := y
  obtain ⟨x, rfl⟩ := (FQ.isFinite_iff _).1 hX
  obtain ⟨s, rfl⟩ := (FQ.isFinite_iff _).1 hS
  obtain ⟨k, rfl⟩ := (FQ.isFinite_iff _).1 hk
  have hden : p.Ks + s ≠ 0 := by
    intro h; exact hKs (by simp [FQ.add, h])
  simp only [derivativesF, FQ.add, FQ.mul, FQ.div, FQ.sub, FQ.neg, FQ.lt]
  rw [if_neg hden, if_neg hXm]
  refine ⟨by simp [FQ.isFinite], ?_, ?_⟩
  · split <;> simp [FQ.isFinite, FQ.add, FQ.mul, FQ.neg, FQ.sub]
  · split_ifs <;> simp [FQ.isFinite, FQ.add, FQ.mul, FQ.neg, FQ.sub]

/-- C1: for every state, time and parameter set with `Ks + S ≠ 0`, the
`derivatives` function returns exactly the piecewise reference law of spec
section 4.1 (`specDerivLaw`). -/
theorem derivatives_eq_spec_law (y : State) (t : ℚ) (p : Params)
    (h : p.Ks + y.S ≠ 0) : derivatives y t p = specDerivLaw y p := rfl

/-- Witness for C1 at the default scenario state and parameters. -/
theorem derivatives_eq_spec_law_witness :
    (⟨1/10, 7/5, 8333/10000, 1, 500, 1, 1/5, 2, 4/5⟩ : Params).Ks +
        (⟨1/500, 3/10, 1/5⟩ : State).S ≠ 0 ∧
      derivatives ⟨1/500, 3/10, 1/5⟩ 0 ⟨1/10, 7/5, 8333/10000, 1, 500, 1, 1/5, 2, 4/5⟩ =
        specDerivLaw ⟨1/500, 3/10, 1/5⟩ ⟨1/10, 7/5, 8333/10000, 1, 500, 1, 1/5, 2, 4/5⟩ :=
  ⟨by norm_num, derivatives_eq_spec_law _ _ _ (by norm_num)⟩

/-- C2: for every parameter set, initial state, interval and step count
`n ≥ 2`, the integrator produces exactly `n` samples; the grid is
`t_i = start + i*(end-start)/(n-1)`; sample `0` is `y0` unchanged; and each
component of sample `i` (for `1 ≤ i ≤ n-1`) is the corresponding component of
sample `i-1` plus the matching component of the derivative at sample `i-1`
times `t_i - t_{i-1}` — a bare forward-Euler update with no state-level
clamping after it. -/
theorem euler_trajectory_spec (p : Params) (y0 : State) (a b : ℚ) (n : ℕ)
    (hn : 2 ≤ n) (i : ℕ) (h1 : 1 ≤ i) (h2 : i ≤ n - 1) :
    (trajList p y0 a b n).length = n ∧
    traj p y0 a b n 0 = y0 ∧
    linspace a b n i = a + (i : ℚ) * (b - a) / ((n : ℚ) - 1) ∧
    (traj p y0 a b n i).X = (traj p y0 a b n (i - 1)).X +
      (derivatives (traj p y0 a b n (i - 1)) (linspace a b n (i - 1)) p).X *
        (linspace a b n i - linspace a b n (i - 1)) ∧
    (traj p y0 a b n i).S = (traj p y0 a b n (i - 1)).S +
      (derivatives (traj p y0 a b n (i - 1)) (linspace a b n (i - 1)) p).S *
        (linspace a b n i - linspace a b n (i - 1)) ∧
    (traj p y0 a b n i).kla = (traj p y0 a b n (i - 1)).kla +
      (derivatives (traj p y0 a b n (i - 1)) (linspace a b n (i - 1)) p).kla *
        (linspace a b n i - linspace a b n (i - 1)) := by
  obtain ⟨j, rfl⟩ : ∃ j, i = j + 1 := ⟨i - 1, (Nat.succ_pred_eq_of_pos h1).symm⟩
  simp only [Nat.add_sub_cancel]
  exact ⟨by simp [trajList], rfl, rfl, rfl, rfl, rfl⟩

/-- Witness for C2: a concrete two-point run. -/
theorem euler_trajectory_spec_witness :
    2 ≤ 2 ∧ 1 ≤ 1 ∧ 1 ≤ 2 - 1 ∧
    ((trajList ⟨1, 1, 1, 1, 1, 1, 1, 1, 1⟩ ⟨1, 1, 1⟩ 0 1 2).length = 2 ∧
     traj ⟨1, 1, 1, 1, 1, 1, 1, 1, 1⟩ ⟨1, 1, 1⟩ 0 1 2 0 = ⟨1, 1, 1⟩ ∧
     linspace 0 1 2 1 = 0 + ((1 : ℕ) : ℚ) * (1 - 0) / (((2 : ℕ) : ℚ) - 1) ∧
     (traj ⟨1, 1, 1, 1, 1, 1, 1, 1, 1⟩ ⟨1, 1, 1⟩ 0 1 2 1).X =
       (traj ⟨1, 1, 1, 1, 1, 1, 1, 1, 1⟩ ⟨1, 1, 1⟩ 0 1 2 (1 - 1)).X +
         (derivatives (traj ⟨1, 1, 1, 1, 1, 1, 1, 1, 1⟩ ⟨1, 1, 1⟩ 0 1 2 (1 - 1))
             (linspace 0 1 2 (1 - 1)) ⟨1, 1, 1, 1, 1, 1, 1, 1, 1⟩).X *
           (linspace 0 1 2 1 - linspace 0 1 2 (1 - 1)) ∧
     (traj ⟨1, 1, 1, 1, 1, 1, 1, 1, 1⟩ ⟨1, 1, 1⟩ 0 1 2 1).S =
       (traj ⟨1, 1, 1, 1, 1, 1, 1, 1, 1⟩ ⟨1, 1, 1⟩ 0 1 2 (1 - 1)).S +
         (derivatives (traj ⟨1, 1, 1, 1, 1, 1, 1, 1, 1⟩ ⟨1, 1, 1⟩ 0 1 2 (1 - 1))
             (linspace 0 1 2 (1 - 1)) ⟨1, 1, 1, 1, 1, 1, 1, 1, 1⟩).S *
           (linspace 0 1 2 1 - linspace 0 1 2 (1 - 1)) ∧
     (traj ⟨1, 1, 1, 1, 1, 1, 1, 1, 1⟩ ⟨1, 1, 1⟩ 0 1 2 1).kla =
       (traj ⟨1, 1, 1, 1, 1, 1, 1, 1, 1⟩ ⟨1, 1, 1⟩ 0 1 2 (1 - 1)).kla +
         (derivatives (traj ⟨1, 1, 1, 1, 1, 1, 1, 1, 1⟩ ⟨1, 1, 1⟩ 0 1 2 (1 - 1))
             (linspace 0 1 2 (1 - 1)) ⟨1, 1, 1, 1, 1, 1, 1, 1, 1⟩).kla *
           (linspace 0 1 2 1 - linspace 0 1 2 (1 - 1))) :=
  ⟨by norm_num, by norm_num, by norm_num,
    euler_trajectory_spec ⟨1, 1, 1, 1, 1, 1, 1, 1, 1⟩ ⟨1, 1, 1⟩ 0 1 2
      (by norm_num) 1 (by norm_num) (by norm_num)⟩

/-- C3 as stated is false: the parameters below are valid (`Xm = 2 > 0`,
`Ks = 1 > 0`, `C = 1 > 0`) and the initial state has `X0 = 1 > 0`,
`S0 = 1 > 0`, `kla0 = 0 ≥ 0`, yet on the grid `[0, 4]` with `5` points one
Euler step lands the substrate exactly on `-Ks`, and the next derivative
evaluation divides by zero, so sample `2` of the `X` trajectory is `-∞` —
a non-finite sample. -/
theorem trajectory_nonfinite_counterexample :
    (0 : ℚ) < (⟨0, 1, 1, 2, 2, 1, 0, 0, 1⟩ : Params).Xm ∧
    (0 : ℚ) < (⟨0, 1, 1, 2, 2, 1, 0, 0, 1⟩ : Params).Ks ∧
    (0 : ℚ) < (⟨0, 1, 1, 2, 2, 1, 0, 0, 1⟩ : Params).C ∧
    (0 : ℚ) < (⟨1, 1, 0⟩ : State).X ∧
    (0 : ℚ) < (⟨1, 1, 0⟩ : State).S ∧
    (0 : ℚ) ≤ (⟨1, 1, 0⟩ : State).kla ∧
    (trajF ⟨0, 1, 1, 2, 2, 1, 0, 0, 1⟩ ⟨1, 1, 0⟩ 0 4 5 2).X = FQ.inf false ∧
    (trajF ⟨0, 1, 1, 2, 2, 1, 0, 0, 1⟩ ⟨1, 1, 0⟩ 0 4 5 2).X.isFinite = false := by
  have h2 : trajF ⟨0, 1, 1, 2, 2, 1, 0, 0, 1⟩ ⟨1, 1, 0⟩ 0 4 5 2 =
      ⟨FQ.inf false, FQ.fin (-1), FQ.fin 0⟩ := by
    show stepF _ (stepF _ _ _ _) _ _ = _
    norm_num [stepF, derivativesF, linspace, trajF, State.toF, FQ.add, FQ.mul,
      FQ.div, FQ.sub, FQ.neg, FQ.lt, StateF.mk.injEq]
  refine ⟨by norm_num, by norm_num, by norm_num, by norm_num, by norm_num,
    by norm_num, ?_, ?_⟩ <;> simp [h2, FQ.isFinite]

/-- C3 amended: with valid parameters (`Xm > 0`, `Ks > 0`, `C > 0`) and an
initial state with `X0 > 0`, `S0 > 0`, `kla0 ≥ 0`, every sample of the
trajectory is finite PROVIDED the growth-term denominator `Ks + S_i` is
nonzero at every step where the derivative is evaluated (the counterexample
above shows this proviso is necessary: `S` can land exactly on `-Ks`). -/
theorem trajF_finite_of_nonsingular (p : Params) (y0 : State) (a b : ℚ) (n : ℕ)
    (hXm : 0 < p.Xm) (hKs : 0 < p.Ks) (hC : 0 < p.C)
    (hX0 : 0 < y0.X) (hS0 : 0 < y0.S) (hk0 : 0 ≤ y0.kla)
    (hden : ∀ j, j + 1 < n → (FQ.fin p.Ks).add (trajF p y0 a b n j).S ≠ FQ.fin 0)
    (i : ℕ) (hi : i < n) :
    (trajF p y0 a b n i).X.isFinite ∧ (trajF p y0 a b n i).S.isFinite ∧
      (trajF p y0 a b n i).kla.isFinite := by
  induction i with
  | zero => simp [trajF, State.toF, FQ.isFinite]
  | succ j ih =>
      obtain ⟨h1, h2, h3⟩ := ih (Nat.lt_of_succ_lt hi)
      obtain ⟨hdX, hdS, hdk⟩ := derivativesF_finite (trajF p y0 a b n j)
        (linspace a b n j) p (ne_of_gt hXm) h1 h2 h3 (hden j hi)
      obtain ⟨x, hx⟩ := (FQ.isFinite_iff _).1 h1
      obtain ⟨s, hs⟩ := (FQ.isFinite_iff _).1 h2
      obtain ⟨k, hk⟩ := (FQ.isFinite_iff _).1 h3
      obtain ⟨dx, hdx⟩ := (FQ.isFinite_iff _).1 hdX
      obtain ⟨ds, hds⟩ := (FQ.isFinite_iff _).1 hdS
      obtain ⟨dk, hdk2⟩ := (FQ.isFinite_iff _).1 hdk
      simp [trajF, stepF, hx, hs, hk, hdx, hds, hdk2, FQ.add, FQ.mul, FQ.isFinite]

/-- Witness for the amended C3 on a concrete benign two-point run. -/
theorem trajF_finite_of_nonsingular_witness :
    (0 : ℚ) < (⟨0, 0, 1, 1, 0, 1, 0, 0, 0⟩ : Params).Xm ∧
    (0 : ℚ) < (⟨0, 0, 1, 1, 0, 1, 0, 0, 0⟩ : Params).Ks ∧
    (0 : ℚ) < (⟨0, 0, 1, 1, 0, 1, 0, 0, 0⟩ : Params).C ∧
    (0 : ℚ) < (⟨1, 1, 0⟩ : State).X ∧
    (0 : ℚ) < (⟨1, 1, 0⟩ : State).S ∧
    (0 : ℚ) ≤ (⟨1, 1, 0⟩ : State).kla ∧
    1 < 2 ∧
    ((trajF ⟨0, 0, 1, 1, 0, 1, 0, 0, 0⟩ ⟨1, 1, 0⟩ 0 1 2 1).X.isFinite ∧
     (trajF ⟨0, 0, 1, 1, 0, 1, 0, 0, 0⟩ ⟨1, 1, 0⟩ 0 1 2 1).S.isFinite ∧
     (trajF ⟨0, 0, 1, 1, 0, 1, 0, 0, 0⟩ ⟨1, 1, 0⟩ 0 1 2 1).kla.isFinite) :=
  ⟨by norm_num, by norm_num, by norm_num, by norm_num, by norm_num, by norm_num,
    by norm_num,
    trajF_finite_of_nonsingular ⟨0, 0, 1, 1, 0, 1, 0, 0, 0⟩ ⟨1, 1, 0⟩ 0 1 2
      (by norm_num) (by norm_num) (by norm_num) (by norm_num) (by norm_num)
      (by norm_num)
      (by
        intro j hj
        have hj0 : j = 0 := by omega
        subst hj0
        norm_num [trajF, State.toF, FQ.add])
      1 (by norm_num)⟩

/-- C4: the integrator has no finiteness handling at all.  In the run below
the `X` component becomes `-∞` at sample 2; the loop does not halt, reports
nothing, and keeps stepping with the corrupted state: the full 5-row
trajectory is produced, with samples 3 and 4 computed from the non-finite
sample (they are NaN). -/
theorem euler_continues_after_nonfinite :
    (trajListF ⟨0, 1, 1, 2, 2, 1, 0, 0, 1⟩ ⟨1, 1, 0⟩ 0 4 5).length = 5 ∧
    (trajF ⟨0, 1, 1, 2, 2, 1, 0, 0, 1⟩ ⟨1, 1, 0⟩ 0 4 5 2).X = FQ.inf false ∧
    (trajF ⟨0, 1, 1, 2, 2, 1, 0, 0, 1⟩ ⟨1, 1, 0⟩ 0 4 5 3).X = FQ.nan ∧
    (trajF ⟨0, 1, 1, 2, 2, 1, 0, 0, 1⟩ ⟨1, 1, 0⟩ 0 4 5 4).X = FQ.nan := by
  have h2 : trajF ⟨0, 1, 1, 2, 2, 1, 0, 0, 1⟩ ⟨1, 1, 0⟩ 0 4 5 2 =
      ⟨FQ.inf false, FQ.fin (-1), FQ.fin 0⟩ := by
    show stepF _ (stepF _ _ _ _) _ _ = _
    norm_num [stepF, derivativesF, linspace, trajF, State.toF, FQ.add, FQ.mul,
      FQ.div, FQ.sub, FQ.neg, FQ.lt, StateF.mk.injEq]
  have h3 : trajF ⟨0, 1, 1, 2, 2, 1, 0, 0, 1⟩ ⟨1, 1, 0⟩ 0 4 5 3 =
      ⟨FQ.nan, FQ.fin (-1), FQ.fin 0⟩ := by
    show stepF _ (trajF ⟨0, 1, 1, 2, 2, 1, 0, 0, 1⟩ ⟨1, 1, 0⟩ 0 4 5 2) _ _ = _
    rw [h2]
    norm_num [stepF, derivativesF, linspace, FQ.add, FQ.mul, FQ.div, FQ.sub,
      FQ.neg, FQ.lt, StateF.mk.injEq]
  have h4 : trajF ⟨0, 1, 1, 2, 2, 1, 0, 0, 1⟩ ⟨1, 1, 0⟩ 0 4 5 4 =
      ⟨FQ.nan, FQ.fin (-1), FQ.fin 0⟩ := by
    show stepF _ (trajF ⟨0, 1, 1, 2, 2, 1, 0, 0, 1⟩ ⟨1, 1, 0⟩ 0 4 5 3) _ _ = _
    rw [h3]
    norm_num [stepF, derivativesF, linspace, FQ.add, FQ.mul, FQ.div, FQ.sub,
      FQ.neg, FQ.lt, StateF.mk.injEq]
  exact ⟨by simp [trajListF], by rw [h2], by rw [h3], by rw [h4]⟩

/-- C5: evaluated at a state with `Ks + S = 0`, the code performs the division
anyway: the call returns normally with `dXdt = -∞` — a silently produced
non-finite value, exactly what NumPy float64 arithmetic does there; no error
is signalled and no input is rejected. -/
theorem derivatives_silent_at_singularity :
    ((FQ.fin (⟨1/10, 7/5, 8333/10000, 1, 500, 1, 1/5, 2, 4/5⟩ : Params).Ks).add
        ((⟨1/2, -8333/10000, 0⟩ : State).toF).S = FQ.fin 0) ∧
    (derivativesF (State.toF ⟨1/2, -8333/10000, 0⟩) 0
        ⟨1/10, 7/5, 8333/10000, 1, 500, 1, 1/5, 2, 4/5⟩).X = FQ.inf false ∧
    (derivativesF (State.toF ⟨1/2, -8333/10000, 0⟩) 0
        ⟨1/10, 7/5, 8333/10000, 1, 500, 1, 1/5, 2, 4/5⟩).X.isFinite = false := by
  norm_num [derivativesF, State.toF, FQ.add, FQ.mul, FQ.div, FQ.sub, FQ.neg,
    FQ.lt, FQ.isFinite]

/-- C6: the simulation is deterministic — two runs on identical parameter
set, initial state and grid produce equal trajectories, sample by sample
(the computation is a pure function of its inputs; no randomness anywhere). -/
theorem run_deterministic (p1 p2 : Params) (y01 y02 : State) (a1 a2 b1 b2 : ℚ)
    (n1 n2 : ℕ) (hp : p1 = p2) (hy : y01 = y02) (ha : a1 = a2) (hb : b1 = b2)
    (hn : n1 = n2) (i : ℕ) :
    trajList p1 y01 a1 b1 n1 = trajList p2 y02 a2 b2 n2 ∧
    traj p1 y01 a1 b1 n1 i = traj p2 y02 a2 b2 n2 i := by
  subst hp; subst hy; subst ha; subst hb; subst hn
  exact ⟨rfl, rfl⟩

/-- Witness for C6 on a concrete pair of identical runs. -/
theorem run_deterministic_witness :
    (⟨1, 1, 1, 1, 1, 1, 1, 1, 1⟩ : Params) = ⟨1, 1, 1, 1, 1, 1, 1, 1, 1⟩ ∧
    (⟨1, 1, 1⟩ : State) = ⟨1, 1, 1⟩ ∧
    (0 : ℚ) = 0 ∧ (1 : ℚ) = 1 ∧ (3 : ℕ) = 3 ∧
    (trajList ⟨1, 1, 1, 1, 1, 1, 1, 1, 1⟩ ⟨1, 1, 1⟩ 0 1 3 =
       trajList ⟨1, 1, 1, 1, 1, 1, 1, 1, 1⟩ ⟨1, 1, 1⟩ 0 1 3 ∧
     traj ⟨1, 1, 1, 1, 1, 1, 1, 1, 1⟩ ⟨1, 1, 1⟩ 0 1 3 2 =
       traj ⟨1, 1, 1, 1, 1, 1, 1, 1, 1⟩ ⟨1, 1, 1⟩ 0 1 3 2) :=
  ⟨rfl, rfl, rfl, rfl, rfl,
    run_deterministic ⟨1, 1, 1, 1, 1, 1, 1, 1, 1⟩ ⟨1, 1, 1, 1, 1, 1, 1, 1, 1⟩
      ⟨1, 1, 1⟩ ⟨1, 1, 1⟩ 0 0 1 1 3 3 rfl rfl rfl rfl rfl 2⟩

/-- C8: the output of `derivatives` does not depend on the proportional gain
`Kp`: two parameter sets that agree on every field except `Kp` give equal
results on every state and time — `Kp` is dead configuration, never used in
the derivative law (it appears only in a commented-out line of the source). -/
theorem derivatives_independent_of_Kp (y : State) (t : ℚ)
    (mua mum Ks Xm b C Kp Kp' Ki Do : ℚ) :
    derivatives y t ⟨mua, mum, Ks, Xm, b, C, Kp, Ki, Do⟩ =
      derivatives y t ⟨mua, mum, Ks, Xm, b, C, Kp', Ki, Do⟩ := rfl

/-- C9: the substrate floor is a strict comparison.  At `S = 0` the floor
branch does not apply: `dSdt = -X*b + kla*(C - 0) = -X*b + kla*C`; whenever
`X*b > kla*C` this is strictly negative, and a forward-Euler step with
`dt > 0` takes `S` strictly below zero from exactly empty. -/
theorem substrate_floor_strict (y : State) (t dt : ℚ) (p : Params)
    (hS : y.S = 0) (h : y.kla * p.C < y.X * p.b) (hdt : 0 < dt) :
    (derivatives y t p).S = -y.X * p.b + y.kla * p.C ∧
    (derivatives y t p).S < 0 ∧
    (eulerStep p y t dt).S < 0 := by
  have hSder : (derivatives y t p).S = -y.X * p.b + y.kla * p.C := by
    simp [derivatives, hS]
  have hneg : -y.X * p.b + y.kla * p.C < 0 := by linarith
  refine ⟨hSder, by rw [hSder]; exact hneg, ?_⟩
  show y.S + (derivatives y t p).S * dt < 0
  rw [hS, hSder]
  have := mul_neg_of_neg_of_pos hneg hdt
  linarith

/-- Witness for C9 at a concrete state sitting exactly on `S = 0`. -/
theorem substrate_floor_strict_witness :
    (⟨1, 0, 0⟩ : State).S = 0 ∧
    (⟨1, 0, 0⟩ : State).kla * (⟨0, 0, 1, 1, 2, 1, 0, 0, 0⟩ : Params).C <
      (⟨1, 0, 0⟩ : State).X * (⟨0, 0, 1, 1, 2, 1, 0, 0, 0⟩ : Params).b ∧
    (0 : ℚ) < 1 ∧
    ((derivatives ⟨1, 0, 0⟩ 0 ⟨0, 0, 1, 1, 2, 1, 0, 0, 0⟩).S =
        -(⟨1, 0, 0⟩ : State).X * (⟨0, 0, 1, 1, 2, 1, 0, 0, 0⟩ : Params).b +
          (⟨1, 0, 0⟩ : State).kla * (⟨0, 0, 1, 1, 2, 1, 0, 0, 0⟩ : Params).C ∧
     (derivatives ⟨1, 0, 0⟩ 0 ⟨0, 0, 1, 1, 2, 1, 0, 0, 0⟩).S < 0 ∧
     (eulerStep ⟨0, 0, 1, 1, 2, 1, 0, 0, 0⟩ ⟨1, 0, 0⟩ 0 1).S < 0) :=
  ⟨rfl, by norm_num, by norm_num,
    substrate_floor_strict ⟨1, 0, 0⟩ 0 1 ⟨0, 0, 1, 1, 2, 1, 0, 0, 0⟩ rfl
      (by norm_num) (by norm_num)⟩

/-- C10: the system is autonomous — `derivatives` ignores its time argument:
for every state and parameter set, evaluation at any two times is equal. -/
theorem derivatives_time_invariant (y : State) (p : Params) (t1 t2 : ℚ) :
    derivatives y t1 p = derivatives y t2 p := rfl
